import Mathlib

/-!
Shallow embedding of the CitySense repository (React + Firestore + Cloudinary
issue-reporting application) and proofs about its natural-language
specification.  Each definition is translated from the JavaScript source
named in its doc comment.  Times are modelled as integer milliseconds since
the epoch; JavaScript numbers are modelled as `ℚ` (or `Int` where the source
only ever holds integers); fallible operations return `Option`/`Except`.
-/

namespace CitySense

/-! ### Firestore array field transforms

`arrayUnion` appends an element only if it is not already present;
`arrayRemove` removes all occurrences.  These model the Firestore SDK
transforms used by `src/services/database.js`. -/

/-- Firestore `arrayUnion(u)` on a string-array field: append `u` unless present. -/
def arrayUnion (xs : List String) (u : String) : List String :=
  if u ∈ xs then xs else xs ++ [u]

/-- Firestore `arrayRemove(u)` on a string-array field: remove every occurrence of `u`. -/
def arrayRemove (xs : List String) (u : String) : List String :=
  xs.filter (fun x => x ≠ u)

/-! ### Vote state (claims C2, C3) -/

/-- The vote-relevant fields of an issue document
(`upvotes` counter and `upvotedBy` user-id array). -/
structure VoteDoc where
  upvotes : Int
  upvotedBy : List String
deriving DecidableEq

/-- `upvoteIssue` from `src/services/database.js` (lines 250-281): reads the
issue document, and toggles the calling user's vote.  If `userId` is already
in `upvotedBy` it removes it (`arrayRemove`) and decrements `upvotes`
(`increment(-1)`), returning `false`; otherwise it adds it (`arrayUnion`) and
increments `upvotes` (`increment(1)`), returning `true`. -/
def upvoteIssue (userId : String) (d : VoteDoc) : VoteDoc × Bool :=
  if userId ∈ d.upvotedBy then
    ({ upvotes := d.upvotes - 1, upvotedBy := arrayRemove d.upvotedBy userId }, false)
  else
    ({ upvotes := d.upvotes + 1, upvotedBy := arrayUnion d.upvotedBy userId }, true)

/-- `upvoteIssue` from the Cloudinary-backed service variant
(`src/unnamed/part_002`, lines 291-305): unconditionally increments the
counter and applies `arrayUnion`, with no membership guard. -/
def upvoteIssueCloudinary (userId : String) (d : VoteDoc) : VoteDoc :=
  { upvotes := d.upvotes + 1, upvotedBy := arrayUnion d.upvotedBy userId }

/-- `removeUpvote` from the Cloudinary-backed service variant
(`src/unnamed/part_002`, lines 307-320): unconditionally decrements the
counter and applies `arrayRemove`, with no membership guard. -/
def removeUpvoteCloudinary (userId : String) (d : VoteDoc) : VoteDoc :=
  { upvotes := d.upvotes - 1, upvotedBy := arrayRemove d.upvotedBy userId }

/-- The invariant of claim C3: the `upvotes` counter equals the length of
`upvotedBy`, and `upvotedBy` holds no duplicate user ids. -/
def voteInvariant (d : VoteDoc) : Prop :=
  d.upvotes = (d.upvotedBy.length : Int) ∧ d.upvotedBy.Nodup

instance (d : VoteDoc) : Decidable (voteInvariant d) := by
  unfold voteInvariant; infer_instance

/-! ### Report form validation (claim C9) -/

/-- The form state of `src/pages/Report.jsx` relevant to `validateForm`.
All fields are strings: `latitude`/`longitude` are set from text inputs or
from `position.coords.latitude.toString()`. -/
structure ReportForm where
  title : String
  description : String
  category : String
  location : String
  latitude : String
  longitude : String
deriving DecidableEq

/-- JavaScript `String.prototype.trim()`: strip leading and trailing
whitespace (modelled character-list-wise so that it evaluates by kernel
reduction). -/
def jsTrim (s : String) : String :=
  ⟨((s.data.dropWhile Char.isWhitespace).reverse.dropWhile Char.isWhitespace).reverse⟩

/-- The `newErrors` object accumulated by `validateForm`; each field is
`some message` when the corresponding key was assigned. -/
structure FormErrors where
  title : Option String
  description : Option String
  category : Option String
  location : Option String
  coordinates : Option String
deriving DecidableEq

/-- `Object.keys(newErrors).length === 0` for the accumulated error object. -/
def FormErrors.isEmpty (e : FormErrors) : Bool :=
  e.title = none && e.description = none && e.category = none &&
    e.location = none && e.coordinates = none

/-- `validateForm` from `src/pages/Report.jsx` (lines 120-150): builds the
error object field by field (title requires non-blank trim and length ≥ 5,
description non-blank trim and length ≥ 20, category non-empty, location
non-blank trim, latitude and longitude non-empty) and returns whether the
error object ended up empty. -/
def validateForm (f : ReportForm) : FormErrors × Bool :=
  let eTitle : Option String :=
    if jsTrim f.title = "" then some "Title is required"
    else if f.title.length < 5 then some "Title must be at least 5 characters long"
    else none
  let eDescription : Option String :=
    if jsTrim f.description = "" then some "Description is required"
    else if f.description.length < 20 then some "Description must be at least 20 characters long"
    else none
  let eCategory : Option String :=
    if f.category = "" then some "Category is required" else none
  let eLocation : Option String :=
    if jsTrim f.location = "" then some "Location is required" else none
  let eCoordinates : Option String :=
    if f.latitude = "" ∨ f.longitude = "" then
      some "Please provide coordinates or use current location"
    else none
  let errs : FormErrors :=
    { title := eTitle, description := eDescription, category := eCategory,
      location := eLocation, coordinates := eCoordinates }
  (errs, errs.isEmpty)

/-! ### JavaScript object spread (claim C10) -/

/-- A JavaScript value as it occurs in the issue documents built by
`createIssue`/`addIssue`. -/
inductive JsValue where
  | str (s : String)
  | num (q : ℚ)
  | jsBool (b : Bool)
  | jsNull
  | arr (xs : List JsValue)
  | timestampAt (t : Int)

/-- A JavaScript object literal as an insertion-ordered association list;
a later binding of the same key overrides an earlier one, so
`{ ...a, k: v }` is modelled as `a ++ [(k, v)]`. -/
abbrev JsObject := List (String × JsValue)

/-- Property lookup: the value of the last binding of `k`, if any. -/
def getField (o : JsObject) (k : String) : Option JsValue :=
  (o.reverse.find? (fun e => e.1 = k)).map (fun e => e.2)

/-- `ISSUE_STATUS.OPEN` from `src/services/database.js`. -/
def ISSUE_STATUS_OPEN : String := "Open"

/-- The issue document built by `createIssue` in `src/services/database.js`
(lines 135-153): spread of the caller's `issueData`, then `status`,
`upvotes`, `upvotedBy`, `timestamp`, `resolvedAt`, `resolvedBy` assigned
afterwards. -/
def createIssueDoc (issueData : JsObject) (now : Int) : JsObject :=
  issueData ++
    [("status", .str ISSUE_STATUS_OPEN),
     ("upvotes", .num 0),
     ("upvotedBy", .arr []),
     ("timestamp", .timestampAt now),
     ("resolvedAt", .jsNull),
     ("resolvedBy", .jsNull)]

/-- The issue document built by `addIssue` in `src/services/database.js`
(lines 44-87): spread of `issueData`, then `imageURL` (the upload result or
`null`), then the same fixed fields as `createIssue`. -/
def addIssueDoc (issueData : JsObject) (imageURL : Option String) (now : Int) : JsObject :=
  issueData ++
    [("imageURL", match imageURL with | some u => .str u | none => .jsNull),
     ("status", .str ISSUE_STATUS_OPEN),
     ("upvotes", .num 0),
     ("upvotedBy", .arr []),
     ("timestamp", .timestampAt now),
     ("resolvedAt", .jsNull),
     ("resolvedBy", .jsNull)]

/-! ### Escalation heuristic (claim C1)

`checkEscalatedIssues` from `src/pages/AdminDashboard.jsx` (lines 61-91).
The JavaScript groups issues into an object keyed by the template string
`round(lat*1000) + "-" + round(lng*1000)`; that string is uniquely parsable
(the separator is the first dash at a positive position), so keys are
modelled as pairs of integers.  `Object.values` of an object whose keys all
contain a dash (hence are never array indices) enumerates groups in key
insertion order, so the object is modelled as an insertion-ordered
association list. -/

/-- The `location` field of an issue as the escalation check sees it:
possibly absent, with possibly absent `lat`/`lng` members. -/
structure Coordinates where
  lat : Option ℚ
  lng : Option ℚ
deriving DecidableEq

/-- The fields of an issue read by `checkEscalatedIssues`. -/
structure GeoIssue where
  location : Option Coordinates
  timestamp : Int
deriving DecidableEq

/-- The grouping key of an issue, or `none` when the issue is skipped.
The guard `!issue.location?.lat || !issue.location?.lng` skips an issue
when `location` is absent, when `lat` or `lng` is absent, and also when
`lat` or `lng` equals `0` (a falsy number in JavaScript).  `Math.round`
is `⌊x + 1/2⌋`, which is Mathlib's `round` on `ℚ`. -/
def bucketOf (i : GeoIssue) : Option (Int × Int) :=
  match i.location with
  | none => none
  | some loc =>
    match loc.lat, loc.lng with
    | some a, some b =>
        if a = 0 ∨ b = 0 then none
        else some (round (a * 1000), round (b * 1000))
    | _, _ => none

/-- One step of building `locationGroups`: push `i` onto the group of key
`k`, creating the group at the end (insertion order) when the key is new. -/
def insertGroup (groups : List ((Int × Int) × List GeoIssue)) (k : Int × Int)
    (i : GeoIssue) : List ((Int × Int) × List GeoIssue) :=
  match groups with
  | [] => [(k, [i])]
  | (k', g) :: rest =>
      if k' = k then (k', g ++ [i]) :: rest else (k', g) :: insertGroup rest k i

/-- The `locationGroups` object: a left fold of the issue list, skipping
issues whose bucket key is `none`. -/
def buildGroups (issues : List GeoIssue) : List ((Int × Int) × List GeoIssue) :=
  issues.foldl
    (fun gs i =>
      match bucketOf i with
      | none => gs
      | some k => insertGroup gs k i)
    []

/-- `moment(issue.timestamp).isAfter(moment().subtract(24, 'hours'))`:
the timestamp is strictly newer than 24 hours (86400000 ms) before `now`. -/
def recentWithin (now : Int) (i : GeoIssue) : Bool :=
  now - 86400000 < i.timestamp

/-- An entry pushed onto the `escalated` array: the first group member's
location, the group's recent issues, and their count. -/
structure Escalation where
  location : Option Coordinates
  issues : List GeoIssue
  count : Nat
deriving DecidableEq

/-- `group[0].location` (groups are never empty in the source; `none` stands
for the unreachable empty case). -/
def headLocation (g : List GeoIssue) : Option Coordinates :=
  match g with
  | [] => none
  | i :: _ => i.location

/-- The body of the `Object.values(locationGroups).forEach` loop: an
escalation entry when the group has at least 5 issues of which at least 3
are recent, and nothing otherwise. -/
def escalationOfGroup (now : Int) (g : List GeoIssue) : Option Escalation :=
  if 5 ≤ g.length then
    let recent := g.filter (recentWithin now)
    if 3 ≤ recent.length then
      some { location := headLocation g, issues := recent, count := recent.length }
    else none
  else none

/-- `checkEscalatedIssues` from `src/pages/AdminDashboard.jsx`: build the
location groups, then push an escalation entry for every qualifying group. -/
def checkEscalatedIssues (now : Int) (issues : List GeoIssue) : List Escalation :=
  (buildGroups issues).foldl
    (fun esc kg => esc ++ (escalationOfGroup now kg.2).toList)
    []

/-- All issues of the list falling in bucket `k` (in list order). -/
def bucketIssues (issues : List GeoIssue) (k : Int × Int) : List GeoIssue :=
  issues.filter (fun i => bucketOf i = some k)

/-- The escalation entry bucket `k` would produce. -/
def escalationFor (now : Int) (issues : List GeoIssue) (k : Int × Int) : Escalation :=
  { location := headLocation (bucketIssues issues k),
    issues := (bucketIssues issues k).filter (recentWithin now),
    count := ((bucketIssues issues k).filter (recentWithin now)).length }

/-- The escalation condition of claim C1 for bucket `k`: at least 5 issues
in the bucket, at least 3 of them recent. -/
def escalatedCond (now : Int) (issues : List GeoIssue) (k : Int × Int) : Prop :=
  5 ≤ (bucketIssues issues k).length ∧
    3 ≤ ((bucketIssues issues k).filter (recentWithin now)).length

instance (now : Int) (issues : List GeoIssue) (k : Int × Int) :
    Decidable (escalatedCond now issues k) := by
  unfold escalatedCond; infer_instance

/-- The bucket key exactly as the claim words it (refinement reference):
`Math.round(location.lat * 1000)` and `Math.round(location.lng * 1000)`,
ignoring only issues lacking `location.lat` or `location.lng` — without the
JavaScript falsiness on the value `0`. -/
def bucketOfClaim (i : GeoIssue) : Option (Int × Int) :=
  match i.location with
  | none => none
  | some loc =>
    match loc.lat, loc.lng with
    | some a, some b => some (round (a * 1000), round (b * 1000))
    | _, _ => none

/-- The issues the claim's wording places in bucket `k`. -/
def bucketIssuesClaim (issues : List GeoIssue) (k : Int × Int) : List GeoIssue :=
  issues.filter (fun i => bucketOfClaim i = some k)

/-! ### Issue queries (claim C4)

`getIssues` from `src/services/database.js` (lines 156-199) builds a
Firestore query: one `where('==')` clause per truthy filter field, then
`orderBy('timestamp', 'desc')`, then `limit(filters.limit || 50)`.  Query
execution happens inside Firestore, which is outside the repository; it is
modelled from the spec below (`getIssues`). -/

/-- The document fields of an issue that the queries of
`src/services/database.js` read. -/
structure IssueDoc where
  id : String
  category : String
  status : String
  severity : Int
  timestamp : Int
deriving DecidableEq

/-- The `filters` argument of `getIssues`; `none` models an absent
property. -/
structure IssueFilters where
  category : Option String
  status : Option String
  severity : Option Int
  queryLimit : Option Nat
deriving DecidableEq

/-- Whether a string filter field is truthy (`if (filters.category)`):
present and non-empty. -/
def truthyStr (o : Option String) : Bool :=
  match o with
  | none => false
  | some s => s ≠ ""

/-- Whether a numeric filter field is truthy (`if (filters.severity)`):
present and non-zero. -/
def truthyInt (o : Option Int) : Bool :=
  match o with
  | none => false
  | some n => n ≠ 0

/-- The conjunction of the `where('==')` clauses `getIssues` attaches for
the given filters. -/
def matchesFilters (f : IssueFilters) (i : IssueDoc) : Bool :=
  (match f.category with
   | some c => if c ≠ "" then i.category = c else true
   | none => true) &&
  (match f.status with
   | some s => if s ≠ "" then i.status = s else true
   | none => true) &&
  (match f.severity with
   | some v => if v ≠ 0 then i.severity = v else true
   | none => true)

/-- `filters.limit || 50`: the item limit applied to the query. -/
def itemLimit (f : IssueFilters) : Nat :=
  match f.queryLimit with
  | some n => if n ≠ 0 then n else 50
  | none => 50

/-- The `orderBy('timestamp', 'desc')` ordering: `a` comes no later than
`b` when `a`'s timestamp is at least `b`'s. -/
def newerFirst (a b : IssueDoc) : Prop :=
  b.timestamp ≤ a.timestamp

instance : DecidableRel newerFirst := fun a b =>
  inferInstanceAs (Decidable (b.timestamp ≤ a.timestamp))

instance : IsTotal IssueDoc newerFirst :=
  ⟨fun a b => le_total b.timestamp a.timestamp⟩

instance : IsTrans IssueDoc newerFirst :=
  ⟨fun _ _ _ h1 h2 => le_trans h2 h1⟩

/-- Modelled from the spec: Firestore query execution is not part of the
repository; per the spec, "queries filter by category/status/severity and
order by timestamp" and `getIssues` additionally applies
`limit(filters.limit || 50)`.  The query is modelled over the current
contents `docs` of the `issues` collection: keep the documents matching
every `where` clause, order them newest first (a stable sort, as Firestore's
deterministic ordering is), and truncate to the limit. -/
def getIssues (docs : List IssueDoc) (f : IssueFilters) : List IssueDoc :=
  (((docs.filter (matchesFilters f)).insertionSort newerFirst).take (itemLimit f))

/-- A filter object supplying only a status, as the dashboard's status
filter does. -/
def statusFilter (s : String) : IssueFilters :=
  { category := none, status := some s, severity := none, queryLimit := none }

/-- The empty filter object (`getIssues()` with defaults). -/
def noFilters : IssueFilters :=
  { category := none, status := none, severity := none, queryLimit := none }

/-! ### Cached service variant (claim C5)

`src/unnamed/part_004`: a `Map` from `JSON.stringify(filters)` to
`{ data, timestamp }`, a 5-minute freshness bound, and `cache.clear()` on
every successful `createIssue`.  `JSON.stringify` is injective on the
filter record (fixed field set and order, absent fields omitted), so the
cache key is modelled as the filter record itself. -/

/-- The filter fields used by `getIssues` of the cached service variant. -/
structure CacheFilters where
  category : Option String
  status : Option String
  userId : Option String
  queryLimit : Option Nat
deriving DecidableEq

/-- A cache entry: the stored data and its storage time. -/
structure CacheEntry where
  data : List IssueDoc
  timestamp : Int
deriving DecidableEq

/-- The module-level `cache` Map, insertion keyed by serialized filters. -/
abbrev CacheState := List (CacheFilters × CacheEntry)

/-- `cache.get(key)`. -/
def cacheLookup (st : CacheState) (k : CacheFilters) : Option CacheEntry :=
  (st.find? (fun e => e.1 = k)).map (fun e => e.2)

/-- `cache.set(key, value)`: replace any existing binding of the key. -/
def cacheSet (st : CacheState) (k : CacheFilters) (v : CacheEntry) : CacheState :=
  st.filter (fun e => e.1 ≠ k) ++ [(k, v)]

/-- `CACHE_TIMEOUT = 5 * 60 * 1000`. -/
def CACHE_TIMEOUT : Int := 5 * 60 * 1000

/-- `getCachedData` from `src/unnamed/part_004` (lines 36-42): the cached
data when an entry exists and `Date.now() - cached.timestamp <
CACHE_TIMEOUT`, otherwise `null`. -/
def getCachedData (now : Int) (st : CacheState) (k : CacheFilters) :
    Option (List IssueDoc) :=
  match cacheLookup st k with
  | some e => if now - e.timestamp < CACHE_TIMEOUT then some e.data else none
  | none => none

/-- `setCachedData` from `src/unnamed/part_004` (lines 45-47). -/
def setCachedData (now : Int) (st : CacheState) (k : CacheFilters)
    (data : List IssueDoc) : CacheState :=
  cacheSet st k { data := data, timestamp := now }

/-- `getIssues` of the cached service variant (`src/unnamed/part_004`,
lines 166-208): serve a fresh-enough cache entry, otherwise fetch from the
database (`fetch`, abstracting the Firestore query) and store the result.
Returns the issue list, the new cache state, and whether the cache served
the call. -/
def getIssuesCached (now : Int) (fetch : CacheFilters → List IssueDoc)
    (st : CacheState) (f : CacheFilters) :
    List IssueDoc × CacheState × Bool :=
  match getCachedData now st f with
  | some data => (data, st, true)
  | none =>
      let fresh := fetch f
      (fresh, setCachedData now st f fresh, false)

/-- The cache effect of a successful `createIssue` of the cached service
variant (`src/unnamed/part_004`, lines 105-163): `cache.clear()`. -/
def createIssueCacheClear (_st : CacheState) : CacheState := []

/-- A cache-touching operation of the cached service variant, tagged with
its wall-clock time. -/
inductive CacheEvent where
  | create (t : Int)
  | get (t : Int) (f : CacheFilters) (fetch : CacheFilters → List IssueDoc)

/-- The wall-clock time of an event. -/
def CacheEvent.time : CacheEvent → Int
  | .create t => t
  | .get t _ _ => t

/-- The cache state after one operation. -/
def stepCache (st : CacheState) : CacheEvent → CacheState
  | .create _ => createIssueCacheClear st
  | .get t f fetch => (getIssuesCached t fetch st f).2.1

/-- The cache state after a sequence of operations. -/
def runCache (st : CacheState) (evs : List CacheEvent) : CacheState :=
  evs.foldl stepCache st

/-! ### Batched image upload (claim C6)

`batchUploadImages` from `src/services/database.js` (lines 863-894): a loop
over slices of at most `BATCH_SIZE = 3` files, each slice fanned out through
`Promise.allSettled` (one settled result per file, slice results appended in
order), with a fixed 100 ms pause between slices.  The per-file upload is
abstracted as a function `upload` from a file to its settled result; the
wall-clock pause does not affect the returned value. -/

/-- `BATCH_SIZE = 3`. -/
def BATCH_SIZE : Nat := 3

/-- A settled promise as produced by `Promise.allSettled`. -/
inductive Settled (α : Type) where
  | fulfilled (value : α)
  | rejected (reason : String)
deriving DecidableEq

/-- The consecutive slices `files.slice(i, i + BATCH_SIZE)` visited by the
upload loop. -/
def uploadBatches {α : Type} (files : List α) : List (List α) :=
  match files with
  | [] => []
  | f :: rest =>
      (f :: rest).take BATCH_SIZE :: uploadBatches ((f :: rest).drop BATCH_SIZE)
termination_by files.length
decreasing_by simp [List.drop]; omega

/-- `batchUploadImages`: process each slice, appending its settled results
to the accumulated array. -/
def batchUploadImages {α β : Type} (upload : α → Settled β) (files : List α) :
    List (Settled β) :=
  match files with
  | [] => []
  | f :: rest =>
      ((f :: rest).take BATCH_SIZE).map upload ++
        batchUploadImages upload ((f :: rest).drop BATCH_SIZE)
termination_by files.length
decreasing_by simp [List.drop]; omega

/-! ### Upload timeout race (claim C7)

`uploadImageToCloudinaryFast` from `src/services/database.js`
(lines 774-787) awaits `Promise.race([fetch(...), timer])` where the timer
rejects with `Error('Upload timeout after 30 seconds')` after 30000 ms.  A
promise is modelled by its settle time and its outcome; `Promise.race`
settles at the earlier of the two settle times with that promise's outcome
(the first argument winning a tie, as its settlement is reacted to first). -/

/-- A promise modelled by when and how it settles. -/
structure TimedPromise (α : Type) where
  time : Int
  outcome : Except String α

/-- Modelled from the spec: the JavaScript `Promise.race` of two promises
(platform behavior, not repository code) — it settles with whichever
promise settles first. -/
def promiseRace {α : Type} (p q : TimedPromise α) : TimedPromise α :=
  if p.time ≤ q.time then p else q

/-- The 30-second timeout of the fast upload path. -/
def UPLOAD_TIMEOUT_MS : Int := 30000

/-- The rejecting timer promise of `uploadImageToCloudinaryFast`. -/
def uploadTimeoutPromise {α : Type} : TimedPromise α :=
  { time := UPLOAD_TIMEOUT_MS, outcome := .error "Upload timeout after 30 seconds" }

/-- The race awaited by `uploadImageToCloudinaryFast`, with the upload
`fetch` call abstracted by its timed promise. -/
def uploadImageToCloudinaryFast {α : Type} (fetchPromise : TimedPromise α) :
    TimedPromise α :=
  promiseRace fetchPromise uploadTimeoutPromise

/-! ### CSV export (claim C8)

`exportToCSV` from `src/components/common/IssueCard.jsx` (lines 497-552):
filter the issues, build one key/value row object per remaining issue, emit
`Object.keys(csvData[0] || {}).join(',')` as the header and the
comma-joined values of each row, wrapping a value in double quotes exactly
when it is a string containing a comma.  External stringifications are
abstracted as parameters: `render` for JavaScript number-to-string
conversion and `fmtDateTime`/`fmtDate` for the two `moment(...).format`
patterns.  `updatedAt`/`resolvedAt` hold an ISO string or Firestore
timestamp when present (truthy exactly when present) and are modelled as
optional times. -/

/-- The `location` object of an exported issue. -/
structure ExportLocation where
  address : Option String
  lat : Option ℚ
  lng : Option ℚ
deriving DecidableEq

/-- The fields of an issue read by `exportToCSV`. -/
structure ExportIssue where
  id : String
  title : String
  description : String
  category : String
  status : String
  severity : Int
  location : Option ExportLocation
  upvotes : Option Int
  timestamp : Int
  reportedBy : String
  imageURL : Option String
  updatedAt : Option Int
  resolvedAt : Option Int
deriving DecidableEq

/-- The fields of a user read by `exportToCSV`. -/
structure ExportUser where
  uid : String
  displayName : Option String
  email : Option String
deriving DecidableEq

/-- The export filters of `exportToCSV`.  `category`/`status`/`severity`
are active when present, non-empty and not `'all'`; `severity` is compared
against the stringified severity number.  `dateRange` is modelled as the
parsed day count, `none` standing for an absent or `'all'` value. -/
structure ExportFilters where
  category : Option String
  status : Option String
  severity : Option String
  dateRange : Option Int
deriving DecidableEq

/-- The empty export filter object. -/
def noExportFilters : ExportFilters :=
  { category := none, status := none, severity := none, dateRange := none }

/-- Whether an issue passes the export filters (the early-`return false`
cascade at the top of `exportToCSV`). -/
def exportFilterPass (render : ℚ → String) (now : Int) (f : ExportFilters)
    (i : ExportIssue) : Bool :=
  (match f.category with
   | some c => if c ≠ "" ∧ c ≠ "all" then i.category = c else true
   | none => true) &&
  (match f.status with
   | some s => if s ≠ "" ∧ s ≠ "all" then i.status = s else true
   | none => true) &&
  (match f.severity with
   | some s => if s ≠ "" ∧ s ≠ "all" then render (i.severity : ℚ) = s else true
   | none => true) &&
  (match f.dateRange with
   | some days => now - days * 86400000 < i.timestamp
   | none => true)

/-- A value of a CSV row object: a string or a JavaScript number. -/
inductive CsvValue where
  | str (s : String)
  | num (q : ℚ)
deriving DecidableEq

/-- `users.find(u => u.uid === issue.reportedBy)`. -/
def findReporter (users : List ExportUser) (uid : String) : Option ExportUser :=
  users.find? (fun u => u.uid = uid)

/-- The row object built for one issue, as an insertion-ordered key/value
list (JavaScript object literal). -/
def csvRow (fmtDateTime fmtDate : Int → String) (users : List ExportUser)
    (i : ExportIssue) : List (String × CsvValue) :=
  let reporter := findReporter users i.reportedBy
  [("Issue ID", .str i.id),
   ("Title", .str i.title),
   ("Description", .str i.description),
   ("Category", .str i.category),
   ("Status", .str i.status),
   ("Severity", .num (i.severity : ℚ)),
   ("Location Address", .str
      (match i.location with
       | some loc =>
         match loc.address with
         | some a => if a ≠ "" then a else "N/A"
         | none => "N/A"
       | none => "N/A")),
   ("Latitude",
      match i.location with
      | some loc =>
        match loc.lat with
        | some v => if v ≠ 0 then .num v else .str ""
        | none => .str ""
      | none => .str ""),
   ("Longitude",
      match i.location with
      | some loc =>
        match loc.lng with
        | some v => if v ≠ 0 then .num v else .str ""
        | none => .str ""
      | none => .str ""),
   ("Upvotes", .num
      (match i.upvotes with
       | some n => if n ≠ 0 then (n : ℚ) else 0
       | none => 0)),
   ("Reported Date", .str (fmtDateTime i.timestamp)),
   ("Reporter Name", .str
      (match reporter with
       | some r =>
         match r.displayName with
         | some nm => if nm ≠ "" then nm else "Unknown"
         | none => "Unknown"
       | none => "Unknown")),
   ("Reporter Email", .str
      (match reporter with
       | some r =>
         match r.email with
         | some em => if em ≠ "" then em else "Unknown"
         | none => "Unknown"
       | none => "Unknown")),
   ("Image URL", .str
      (match i.imageURL with
       | some u => if u ≠ "" then u else "N/A"
       | none => "N/A")),
   ("Created Date", .str (fmtDate i.timestamp)),
   ("Updated Date", .str
      (match i.updatedAt with
       | some t => fmtDate t
       | none => "N/A")),
   ("Resolution Date", .str
      (match i.resolvedAt with
       | some t => fmtDate t
       | none => "N/A"))]

/-- The stringification applied to each value inside the row join: a string
containing a comma is wrapped in double quotes, any other value is emitted
as is (numbers through the abstract `render`). -/
def csvCell (render : ℚ → String) (v : CsvValue) : String :=
  match v with
  | .str s => if s.contains ',' then "\"" ++ s ++ "\"" else s
  | .num q => render q

/-- `exportToCSV`: the CSV string (the file download side effect is outside
the model). -/
def exportToCSV (render : ℚ → String) (fmtDateTime fmtDate : Int → String)
    (now : Int) (issues : List ExportIssue) (users : List ExportUser)
    (filters : ExportFilters) : String :=
  let filteredIssues := issues.filter (exportFilterPass render now filters)
  let csvData := filteredIssues.map (csvRow fmtDateTime fmtDate users)
  let header := String.intercalate "," ((csvData.headD []).map (fun kv => kv.1))
  String.intercalate "\n"
    (header ::
      csvData.map (fun row =>
        String.intercalate "," (row.map (fun kv => csvCell render kv.2))))

/-- The column names of the export, in row-object insertion order. -/
def exportColumns : List String :=
  ["Issue ID", "Title", "Description", "Category", "Status", "Severity",
   "Location Address", "Latitude", "Longitude", "Upvotes", "Reported Date",
   "Reporter Name", "Reporter Email", "Image URL", "Created Date",
   "Updated Date", "Resolution Date"]

/-- The comma-joined line emitted for one issue. -/
def csvLine (render : ℚ → String) (fmtDateTime fmtDate : Int → String)
    (users : List ExportUser) (i : ExportIssue) : String :=
  String.intercalate ","
    ((csvRow fmtDateTime fmtDate users i).map (fun kv => csvCell render kv.2))

/-! ### Concrete instances used by witnesses and counterexamples -/

/-- Five issues at latitude 0, longitude 1, all reported at time 0. -/
def zeroLatIssues : List GeoIssue :=
  List.replicate 5 { location := some { lat := some 0, lng := some 1 }, timestamp := 0 }

/-- A document of the example collection `exDocs`: distinct descending
timestamps, with only the last (oldest) document `Open`. -/
def mkDoc (n : Nat) : IssueDoc :=
  { id := toString n, category := "Pothole",
    status := if n = 50 then "Open" else "Resolved",
    severity := 3, timestamp := 1000 - (n : Int) }

/-- A 51-document collection: one more than the default query limit. -/
def exDocs : List IssueDoc := (List.range 51).map mkDoc

/-- A two-document collection, far below the query limit. -/
def wDocs : List IssueDoc :=
  [{ id := "a", category := "Pothole", status := "Open", severity := 3, timestamp := 5 },
   { id := "b", category := "Garbage Dumping", status := "Resolved", severity := 2, timestamp := 9 }]

/-- An empty filter object of the cached service variant. -/
def defCacheFilters : CacheFilters :=
  { category := none, status := none, userId := none, queryLimit := none }

/-- Five fresh issues at latitude 1, longitude 1 (a qualifying bucket). -/
def escWitnessIssues : List GeoIssue :=
  List.replicate 5 { location := some { lat := some 1, lng := some 1 }, timestamp := 0 }

/-- A minimal issue passing the empty export filters. -/
def wExportIssue : ExportIssue :=
  { id := "1", title := "t", description := "d", category := "Pothole",
    status := "Open", severity := 3, location := none, upvotes := none,
    timestamp := 0, reportedBy := "r", imageURL := none, updatedAt := none,
    resolvedAt := none }

/-- A report form whose title is whitespace-only but is otherwise valid. -/
def blankTitleForm : ReportForm :=
  { title := " ", description := "a sufficiently long description",
    category := "Pothole", location := "Main St", latitude := "1", longitude := "2" }

/-! ## Theorems -/

/-- Claim C10: for every caller-supplied issue data object — including one
that already contains `status`, `upvotes`, `upvotedBy`, `resolvedAt` or
`resolvedBy` bindings — the documents written by `createIssue` and by
`addIssue` have status `'Open'`, `upvotes` 0, an empty `upvotedBy` array,
and null `resolvedAt`/`resolvedBy`, because those fields are assigned after
spreading `issueData`. -/
theorem createIssue_addIssue_defaults (issueData : JsObject)
    (imageURL : Option String) (now : Int) :
    getField (createIssueDoc issueData now) "status" = some (.str "Open") ∧
    getField (createIssueDoc issueData now) "upvotes" = some (.num 0) ∧
    getField (createIssueDoc issueData now) "upvotedBy" = some (.arr []) ∧
    getField (createIssueDoc issueData now) "resolvedAt" = some .jsNull ∧
    getField (createIssueDoc issueData now) "resolvedBy" = some .jsNull ∧
    getField (addIssueDoc issueData imageURL now) "status" = some (.str "Open") ∧
    getField (addIssueDoc issueData imageURL now) "upvotes" = some (.num 0) ∧
    getField (addIssueDoc issueData imageURL now) "upvotedBy" = some (.arr []) ∧
    getField (addIssueDoc issueData imageURL now) "resolvedAt" = some .jsNull ∧
    getField (addIssueDoc issueData imageURL now) "resolvedBy" = some .jsNull := by
  refine ⟨?_, ?_, ?_, ?_, ?_, ?_, ?_, ?_, ?_, ?_⟩ <;>
    simp [getField, createIssueDoc, addIssueDoc, ISSUE_STATUS_OPEN,
      List.reverse_append, List.find?]

/-- Claim C9: `validateForm` succeeds exactly when the trimmed title is
non-empty and the title has at least 5 characters, the trimmed description
is non-empty and the description has at least 20 characters, a category is
selected, the trimmed location is non-empty, and latitude and longitude are
both provided; any form whose title is empty or whitespace-only fails with
a recorded title error. -/
theorem validateForm_spec (f : ReportForm) :
    ((validateForm f).2 = true ↔
      (jsTrim f.title ≠ "" ∧ 5 ≤ f.title.length ∧
       jsTrim f.description ≠ "" ∧ 20 ≤ f.description.length ∧
       f.category ≠ "" ∧ jsTrim f.location ≠ "" ∧
       f.latitude ≠ "" ∧ f.longitude ≠ "")) ∧
    (jsTrim f.title = "" →
      (validateForm f).2 = false ∧
        (validateForm f).1.title = some "Title is required") := by
  unfold validateForm FormErrors.isEmpty
  constructor
  · simp only [Bool.and_eq_true, decide_eq_true_eq]
    split_ifs <;> simp_all <;> try omega
    all_goals tauto
  · intro ht
    split_ifs <;> simp_all

/-- Claim C9 witness: a whitespace-only title is rejected with a title
error. -/
theorem validateForm_spec_witness :
    jsTrim blankTitleForm.title = "" ∧
    (validateForm blankTitleForm).2 = false ∧
    (validateForm blankTitleForm).1.title = some "Title is required" := by
  have h := (validateForm_spec blankTitleForm).2 (by decide)
  exact ⟨by decide, h.1, h.2⟩

/-- Claim C7: the fast Cloudinary upload races the fetch against a
30-second timer: a fetch that would settle after the bound is preempted by
the timeout rejection at 30000 ms, a fetch settling within the bound is
used as is, and the awaited race never settles later than 30000 ms. -/
theorem uploadImageToCloudinaryFast_race {α : Type} (fetchPromise : TimedPromise α) :
    (UPLOAD_TIMEOUT_MS < fetchPromise.time →
       uploadImageToCloudinaryFast fetchPromise =
         { time := UPLOAD_TIMEOUT_MS,
           outcome := .error "Upload timeout after 30 seconds" }) ∧
    (fetchPromise.time ≤ UPLOAD_TIMEOUT_MS →
       uploadImageToCloudinaryFast fetchPromise = fetchPromise) ∧
    (uploadImageToCloudinaryFast fetchPromise).time ≤ UPLOAD_TIMEOUT_MS := by
  unfold uploadImageToCloudinaryFast promiseRace uploadTimeoutPromise
  refine ⟨fun h => ?_, fun h => ?_, ?_⟩
  · rw [if_neg (by simpa using h)]
  · rw [if_pos (by simpa using h)]
  · split_ifs with h
    · simpa using h
    · simp

/-- Claim C7 witness: a 40-second fetch is preempted at 30 seconds; a
5-millisecond fetch is used as is. -/
theorem uploadImageToCloudinaryFast_race_witness :
    uploadImageToCloudinaryFast ({ time := 40000, outcome := .ok () } : TimedPromise Unit) =
      { time := 30000, outcome := .error "Upload timeout after 30 seconds" } ∧
    uploadImageToCloudinaryFast ({ time := 5, outcome := .ok () } : TimedPromise Unit) =
      { time := 5, outcome := .ok () } :=
  ⟨(uploadImageToCloudinaryFast_race { time := 40000, outcome := .ok () }).1 (by decide),
   (uploadImageToCloudinaryFast_race { time := 5, outcome := .ok () }).2.1 (by decide)⟩

/-- Claim C2: `upvoteIssue` toggles the user's vote — adding the id and
incrementing when absent (returning `true`), removing it and decrementing
when present (returning `false`) — and doing it twice restores the original
vote state: the same `upvotes` counter and the same set of voters. -/
theorem upvoteIssue_toggle (u : String) (d : VoteDoc) :
    (u ∉ d.upvotedBy →
       upvoteIssue u d =
         ({ upvotes := d.upvotes + 1, upvotedBy := d.upvotedBy ++ [u] }, true)) ∧
    (u ∈ d.upvotedBy →
       upvoteIssue u d =
         ({ upvotes := d.upvotes - 1,
            upvotedBy := d.upvotedBy.filter (fun x => x ≠ u) }, false)) ∧
    ((upvoteIssue u (upvoteIssue u d).1).1.upvotes = d.upvotes ∧
       ∀ v, v ∈ (upvoteIssue u (upvoteIssue u d).1).1.upvotedBy ↔ v ∈ d.upvotedBy) := by
  by_cases hu : u ∈ d.upvotedBy
  · have hnot : u ∉ d.upvotedBy.filter (fun x => x ≠ u) := by simp
    have step1 : upvoteIssue u d =
        ({ upvotes := d.upvotes - 1,
           upvotedBy := d.upvotedBy.filter (fun x => x ≠ u) }, false) := by
      simp [upvoteIssue, hu, arrayRemove]
    have step2 : upvoteIssue u (upvoteIssue u d).1 =
        ({ upvotes := d.upvotes - 1 + 1,
           upvotedBy := d.upvotedBy.filter (fun x => x ≠ u) ++ [u] }, true) := by
      rw [step1]
      simp [upvoteIssue, hnot, arrayUnion]
    refine ⟨fun h => absurd hu h, fun _ => step1, ?_, ?_⟩
    · rw [step2]
      show d.upvotes - 1 + 1 = d.upvotes
      omega
    · intro v
      rw [step2]
      show v ∈ d.upvotedBy.filter (fun x => x ≠ u) ++ [u] ↔ v ∈ d.upvotedBy
      simp only [List.mem_append, List.mem_filter, List.mem_singleton,
        ne_eq, decide_eq_true_eq]
      constructor
      · rintro (⟨hv, _⟩ | rfl)
        · exact hv
        · exact hu
      · intro hv
        by_cases hvu : v = u
        · exact Or.inr hvu
        · exact Or.inl ⟨hv, hvu⟩
  · have step1 : upvoteIssue u d =
        ({ upvotes := d.upvotes + 1, upvotedBy := d.upvotedBy ++ [u] }, true) := by
      simp [upvoteIssue, hu, arrayUnion]
    have hin : u ∈ d.upvotedBy ++ [u] := by simp
    have hfilter : (d.upvotedBy ++ [u]).filter (fun x => x ≠ u) = d.upvotedBy := by
      simp only [List.filter_append]
      have hone : ([u].filter (fun x => x ≠ u)) = [] := by simp
      rw [hone, List.append_nil, List.filter_eq_self]
      intro a ha
      simp only [ne_eq, decide_eq_true_eq]
      exact fun hau => hu (hau ▸ ha)
    have step2 : upvoteIssue u (upvoteIssue u d).1 =
        ({ upvotes := d.upvotes + 1 - 1, upvotedBy := d.upvotedBy }, false) := by
      rw [step1]
      simp only [upvoteIssue, hin, if_pos, arrayRemove]
      rw [hfilter]
    refine ⟨fun _ => step1, fun h => absurd h hu, ?_, ?_⟩
    · rw [step2]
      show d.upvotes + 1 - 1 = d.upvotes
      omega
    · intro v
      rw [step2]

/-- Claim C2 witness: toggling on then off for a fresh user. -/
theorem upvoteIssue_toggle_witness :
    ("u" ∉ (["v"] : List String)) ∧
    upvoteIssue "u" { upvotes := 3, upvotedBy := ["v"] } =
      ({ upvotes := 4, upvotedBy := ["v", "u"] }, true) ∧
    (upvoteIssue "u" (upvoteIssue "u" { upvotes := 3, upvotedBy := ["v"] }).1).1.upvotes = 3 :=
  ⟨by decide,
   (upvoteIssue_toggle "u" { upvotes := 3, upvotedBy := ["v"] }).1 (by decide),
   (upvoteIssue_toggle "u" { upvotes := 3, upvotedBy := ["v"] }).2.2.1⟩

/-- Helper: removing a member from a duplicate-free list by filtering
shortens it by exactly one. -/
theorem filter_ne_length_of_nodup (u : String) (l : List String)
    (hn : l.Nodup) (hm : u ∈ l) :
    (l.filter (fun x => x ≠ u)).length + 1 = l.length := by
  induction l with
  | nil => cases hm
  | cons a l ih =>
    rcases List.mem_cons.mp hm with rfl | hm2
    · have hal : u ∉ l := (List.nodup_cons.mp hn).1
      have hkeep : l.filter (fun x => x ≠ u) = l := by
        rw [List.filter_eq_self]
        intro x hx
        simp only [ne_eq, decide_eq_true_eq]
        exact fun hxu => hal (hxu ▸ hx)
      simp [List.filter_cons, hkeep]
      exact fun a ha hau => hal (hau ▸ ha)
    · have hau : (a ≠ u) := by
        rintro rfl
        exact (List.nodup_cons.mp hn).1 hm2
      have ih2 := ih (List.nodup_cons.mp hn).2 hm2
      have hstep : (a :: l).filter (fun x => x ≠ u) =
          a :: l.filter (fun x => x ≠ u) := by
        simp [List.filter_cons, hau]
      rw [hstep]
      simp only [List.length_cons]
      omega

/-- Claim C3 (amended): the toggling `upvoteIssue` of the main database
service preserves the counter-matches-length and no-duplicates invariant
unconditionally; the `upvoteIssue`/`removeUpvote` pair of the
Cloudinary-backed variant preserves it only when the user is not already in
`upvotedBy` (for `upvoteIssue`) respectively already in it (for
`removeUpvote`). -/
theorem voteInvariant_preservation (u : String) (d : VoteDoc) (h : voteInvariant d) :
    voteInvariant (upvoteIssue u d).1 ∧
    (u ∉ d.upvotedBy → voteInvariant (upvoteIssueCloudinary u d)) ∧
    (u ∈ d.upvotedBy → voteInvariant (removeUpvoteCloudinary u d)) := by
  obtain ⟨hc, hn⟩ := h
  have hadd : u ∉ d.upvotedBy → voteInvariant
      ⟨d.upvotes + 1, arrayUnion d.upvotedBy u⟩ := by
    intro hu
    unfold arrayUnion
    rw [if_neg hu]
    constructor
    · simp only [List.length_append, List.length_cons, List.length_nil]
      push_cast
      omega
    · rw [List.nodup_append]
      refine ⟨hn, by simp, ?_⟩
      intro a ha hau
      rw [List.mem_singleton] at hau
      exact hu (hau ▸ ha)
  have hrem : u ∈ d.upvotedBy → voteInvariant
      ⟨d.upvotes - 1, arrayRemove d.upvotedBy u⟩ := by
    intro hu
    unfold arrayRemove
    constructor
    · have := filter_ne_length_of_nodup u d.upvotedBy hn hu
      push_cast
      omega
    · exact hn.filter _
  refine ⟨?_, hadd, hrem⟩
  unfold upvoteIssue
  by_cases hu : u ∈ d.upvotedBy
  · rw [if_pos hu]
    exact hrem hu
  · rw [if_neg hu]
    exact hadd hu

/-- Claim C3 counterexample: a second upvote by the same user through the
Cloudinary-backed `upvoteIssue` increments the counter without growing the
array, breaking the invariant the claim asserts for that variant. -/
theorem voteInvariant_cloudinary_counterexample :
    voteInvariant ⟨1, ["u"]⟩ ∧
    ¬ voteInvariant (upvoteIssueCloudinary "u" ⟨1, ["u"]⟩) := by
  constructor
  · decide
  · decide

/-- Claim C3 witness: the preserved invariant at concrete documents. -/
theorem voteInvariant_preservation_witness :
    voteInvariant ⟨1, ["v"]⟩ ∧
    voteInvariant (upvoteIssue "u" ⟨1, ["v"]⟩).1 ∧
    voteInvariant (upvoteIssueCloudinary "u" ⟨1, ["v"]⟩) ∧
    voteInvariant (removeUpvoteCloudinary "v" ⟨1, ["v"]⟩) := by
  have h1 := voteInvariant_preservation "u" ⟨1, ["v"]⟩ (by decide)
  have h2 := voteInvariant_preservation "v" ⟨1, ["v"]⟩ (by decide)
  exact ⟨by decide, h1.1, h1.2.1 (by decide), h2.2.2 (by decide)⟩

/-- Helper: the batched upload equals a plain map over the files. -/
theorem batchAux_eq_map {α β : Type} (upload : α → Settled β) (files : List α) :
    batchUploadImages upload files = files.map upload := by
  induction files using batchUploadImages.induct upload with
  | case1 => simp [batchUploadImages]
  | case2 f rest ih =>
    rw [batchUploadImages]
    rw [ih, ← List.map_append, List.take_append_drop]

/-- Helper: the slices concatenate back to the input. -/
theorem batchAux_flatten {α : Type} (files : List α) :
    (uploadBatches files).flatten = files := by
  induction files using uploadBatches.induct with
  | case1 => simp [uploadBatches]
  | case2 f rest ih =>
    rw [uploadBatches]
    simp only [List.flatten_cons, ih, List.take_append_drop]

/-- Helper: every slice is non-empty and holds at most `BATCH_SIZE` files. -/
theorem batchAux_size {α : Type} (files : List α) :
    ∀ b ∈ uploadBatches files, b ≠ [] ∧ b.length ≤ BATCH_SIZE := by
  induction files using uploadBatches.induct with
  | case1 => simp [uploadBatches]
  | case2 f rest ih =>
    rw [uploadBatches]
    intro b hb
    rcases List.mem_cons.mp hb with rfl | hb2
    · refine ⟨by simp [BATCH_SIZE], ?_⟩
      simpa using List.length_take_le BATCH_SIZE (f :: rest)
    · exact ih b hb2

/-- Helper: the batched upload is the concatenation of the per-slice
fan-outs, in slice order. -/
theorem batchAux_eq_flatten {α β : Type} (upload : α → Settled β) (files : List α) :
    batchUploadImages upload files =
      ((uploadBatches files).map (List.map upload)).flatten := by
  induction files using uploadBatches.induct with
  | case1 => simp [uploadBatches, batchUploadImages]
  | case2 f rest ih =>
    rw [uploadBatches, batchUploadImages]
    simp only [List.map_cons, List.flatten_cons, ih]

/-- Claim C6: `batchUploadImages` processes the files in consecutive slices
of at most 3, fans each slice out through the per-file upload and appends
the slice results before starting the next slice, and returns exactly one
settled result per input file, in input order (the fixed 100 ms pause
between slices does not affect the returned value). -/
theorem batchUploadImages_spec {α β : Type} (upload : α → Settled β) (files : List α) :
    batchUploadImages upload files = files.map upload ∧
    (uploadBatches files).flatten = files ∧
    (∀ b ∈ uploadBatches files, b ≠ [] ∧ b.length ≤ BATCH_SIZE) ∧
    batchUploadImages upload files =
      ((uploadBatches files).map (List.map upload)).flatten :=
  ⟨batchAux_eq_map upload files, batchAux_flatten files,
   batchAux_size files, batchAux_eq_flatten upload files⟩

/-- Claim C6 witness: four files form one slice of three and one of one. -/
theorem batchUploadImages_spec_witness :
    batchUploadImages (fun n : Nat => Settled.fulfilled n) [1, 2, 3, 4] =
      [.fulfilled 1, .fulfilled 2, .fulfilled 3, .fulfilled 4] ∧
    ([1, 2, 3] ≠ ([] : List Nat) ∧ ([1, 2, 3] : List Nat).length ≤ BATCH_SIZE) := by
  have h := batchUploadImages_spec (fun n : Nat => Settled.fulfilled n) [1, 2, 3, 4]
  have hb : uploadBatches ([1, 2, 3, 4] : List Nat) = [[1, 2, 3], [4]] := by
    rw [uploadBatches]
    show [1, 2, 3] :: uploadBatches [4] = [[1, 2, 3], [4]]
    rw [uploadBatches]
    show [1, 2, 3] :: [4] :: uploadBatches ([] : List Nat) = [[1, 2, 3], [4]]
    rw [uploadBatches]
  exact ⟨by rw [h.1]; decide, h.2.2.1 [1, 2, 3] (by rw [hb]; decide)⟩

/-- Helper: a cache step keeps old entries or inserts one stamped with the
event's own time, so a lower bound on entry timestamps is preserved. -/
theorem cacheAux_step_entries (tc : Int) (st : CacheState) (ev : CacheEvent)
    (hev : tc ≤ ev.time) (hst : ∀ e ∈ st, tc ≤ e.2.timestamp) :
    ∀ e ∈ stepCache st ev, tc ≤ e.2.timestamp := by
  cases ev with
  | create t =>
    intro e he
    simp [stepCache, createIssueCacheClear] at he
  | get t f fetch =>
    intro e he
    simp only [stepCache, getIssuesCached] at he
    cases hg : getCachedData t st f with
    | some data =>
      rw [hg] at he
      exact hst e he
    | none =>
      rw [hg] at he
      simp only [setCachedData, cacheSet] at he
      rcases List.mem_append.mp he with h1 | h2
      · exact hst e (List.mem_filter.mp h1).1
      · rw [List.mem_singleton] at h2
        subst h2
        exact hev

/-- Helper: the timestamp lower bound carries through a whole run. -/
theorem cacheAux_run_entries (tc : Int) (evs : List CacheEvent) :
    ∀ st : CacheState, (∀ e ∈ st, tc ≤ e.2.timestamp) →
      (∀ ev ∈ evs, tc ≤ ev.time) →
      ∀ e ∈ runCache st evs, tc ≤ e.2.timestamp := by
  induction evs with
  | nil =>
    intro st hst _ e he
    exact hst e he
  | cons ev evs ih =>
    intro st hst hevs e he
    simp only [runCache, List.foldl_cons] at he
    exact ih (stepCache st ev)
      (cacheAux_step_entries tc st ev (hevs ev (by simp)) hst)
      (fun x hx => hevs x (by simp [hx])) e he

/-- Claim C5: the cached `getIssues` serves a cached list iff the entry
stored under the same serialized filters is younger than 5 minutes, in
which case it returns that entry's data unchanged; otherwise it fetches
and stores the fresh result; `createIssue` clears the whole cache, so
every cache entry alive after the write — in particular any entry a later
`getIssues` is served from — was stored at or after the write. -/
theorem cachedService_spec (now : Int) (fetch : CacheFilters → List IssueDoc)
    (st : CacheState) (f : CacheFilters) :
    ((getIssuesCached now fetch st f).2.2 = true ↔
       ∃ e, cacheLookup st f = some e ∧ now - e.timestamp < CACHE_TIMEOUT) ∧
    (∀ e, cacheLookup st f = some e → now - e.timestamp < CACHE_TIMEOUT →
       getIssuesCached now fetch st f = (e.data, st, true)) ∧
    (getCachedData now st f = none →
       getIssuesCached now fetch st f =
         (fetch f, setCachedData now st f (fetch f), false)) ∧
    (∀ (tc : Int) (evs : List CacheEvent) (st0 : CacheState),
       runCache st0 (CacheEvent.create tc :: evs) = runCache [] evs ∧
       ((∀ ev ∈ evs, tc ≤ ev.time) →
          ∀ e ∈ runCache [] evs, tc ≤ e.2.timestamp)) := by
  refine ⟨?_, ?_, ?_, ?_⟩
  · unfold getIssuesCached getCachedData
    cases hl : cacheLookup st f with
    | none => simp
    | some e =>
      by_cases hf : now - e.timestamp < CACHE_TIMEOUT
      · simp [hf]
      · simp [hf]
  · intro e he hfresh
    unfold getIssuesCached getCachedData
    rw [he]
    simp [hfresh]
  · intro hmiss
    unfold getIssuesCached
    rw [hmiss]
  · intro tc evs st0
    constructor
    · simp [runCache, stepCache, createIssueCacheClear]
    · intro hevs
      exact cacheAux_run_entries tc evs [] (by simp) hevs

/-- Claim C5 witness: a 100 ms old entry is served unchanged, and a write
resets the cache. -/
theorem cachedService_spec_witness :
    getIssuesCached 100 (fun _ => ([] : List IssueDoc))
        [(defCacheFilters, ⟨[], 0⟩)] defCacheFilters =
      ([], [(defCacheFilters, ⟨[], 0⟩)], true) ∧
    runCache [(defCacheFilters, ⟨[], 0⟩)] [CacheEvent.create 50] = runCache [] [] := by
  have h := cachedService_spec 100 (fun _ => ([] : List IssueDoc))
    [(defCacheFilters, ⟨[], 0⟩)] defCacheFilters
  exact ⟨h.2.1 ⟨[], 0⟩ (by decide) (by decide), (h.2.2.2 50 [] [(defCacheFilters, ⟨[], 0⟩)]).1⟩

/-- Claim C8 (amended): whenever at least one issue passes the export
filters, `exportToCSV` builds one header line holding the column names
followed by exactly one comma-joined line per passing issue in input order,
and a string field value is wrapped in double quotes exactly when it
contains a comma (when no issue passes, the header degenerates to the keys
of the absent first row and the output is a single empty line). -/
theorem exportToCSV_spec (render : ℚ → String) (fmtDateTime fmtDate : Int → String)
    (now : Int) (issues : List ExportIssue) (users : List ExportUser)
    (filters : ExportFilters)
    (h : issues.filter (exportFilterPass render now filters) ≠ []) :
    exportToCSV render fmtDateTime fmtDate now issues users filters =
      String.intercalate "\n"
        (String.intercalate "," exportColumns ::
          (issues.filter (exportFilterPass render now filters)).map
            (csvLine render fmtDateTime fmtDate users)) ∧
    (∀ s : String, csvCell render (.str s) =
        if s.contains ',' then "\"" ++ s ++ "\"" else s) ∧
    (∀ q : ℚ, csvCell render (.num q) = render q) := by
  refine ⟨?_, fun s => rfl, fun q => rfl⟩
  unfold exportToCSV
  cases hf : issues.filter (exportFilterPass render now filters) with
  | nil => exact absurd hf h
  | cons i rest =>
    simp only [hf, List.map_cons, List.headD_cons, List.map_map]
    rfl

/-- Claim C8 counterexample: with no issues at all (so none passing the
filters), the produced CSV is the empty string, not a header line of column
names. -/
theorem exportToCSV_empty_counterexample :
    exportToCSV (fun _ => "") (fun _ => "") (fun _ => "") 0 [] [] noExportFilters = "" ∧
    String.intercalate "," exportColumns ≠ "" := by
  constructor
  · rfl
  · decide

/-- Claim C8 witness: one passing issue produces the header and its line. -/
theorem exportToCSV_spec_witness :
    exportToCSV (fun _ => "3") (fun _ => "dt") (fun _ => "d") 0
        [wExportIssue] [] noExportFilters =
      String.intercalate "\n"
        (String.intercalate "," exportColumns ::
          ([wExportIssue].filter (exportFilterPass (fun _ => "3") 0 noExportFilters)).map
            (csvLine (fun _ => "3") (fun _ => "dt") (fun _ => "d") [])) :=
  (exportToCSV_spec (fun _ => "3") (fun _ => "dt") (fun _ => "d") 0
    [wExportIssue] [] noExportFilters (by decide)).1

/-- Helper: inserting an element related to everything in the list puts it
at the front. -/
theorem sortAux_orderedInsert_of_forall {α : Type} (r : α → α → Prop)
    [DecidableRel r] (x : α) (l : List α)
    (hx : ∀ z ∈ l, r x z) : List.orderedInsert r x l = x :: l := by
  cases l with
  | nil => rfl
  | cons y ys =>
    show (if r x y then x :: y :: ys else y :: List.orderedInsert r x ys) = x :: y :: ys
    rw [if_pos (hx y (by simp))]

/-- Helper: filtering commutes with ordered insertion into a sorted list. -/
theorem sortAux_filter_orderedInsert {α : Type} (r : α → α → Prop)
    [DecidableRel r] [IsTrans α r] (p : α → Bool) (x : α) :
    ∀ l : List α, l.Sorted r →
      (List.orderedInsert r x l).filter p =
        if p x then List.orderedInsert r x (l.filter p) else l.filter p := by
  intro l
  have hoi : ∀ (z : α) (zs : List α), List.orderedInsert r x (z :: zs) =
      if r x z then x :: z :: zs else z :: List.orderedInsert r x zs :=
    fun z zs => rfl
  induction l with
  | nil =>
    intro _
    by_cases hp : p x <;> simp [List.orderedInsert, List.filter_cons, hp]
  | cons y ys ih =>
    intro hs
    have hys : ys.Sorted r := hs.of_cons
    rw [hoi y ys]
    by_cases hr : r x y
    · rw [if_pos hr]
      by_cases hp : p x
      · have hall : ∀ z ∈ (y :: ys).filter p, r x z := by
          intro z hz
          have hz2 := List.mem_of_mem_filter hz
          rcases List.mem_cons.mp hz2 with rfl | hz3
          · exact hr
          · exact IsTrans.trans x y z hr (List.rel_of_sorted_cons hs z hz3)
        rw [if_pos hp, sortAux_orderedInsert_of_forall r x _ hall,
          List.filter_cons_of_pos hp]
      · rw [if_neg hp, List.filter_cons_of_neg hp]
    · rw [if_neg hr]
      by_cases hpy : p y
      · rw [List.filter_cons_of_pos hpy, List.filter_cons_of_pos hpy, ih hys]
        by_cases hp : p x
        · rw [if_pos hp, if_pos hp, hoi y (ys.filter p), if_neg hr]
        · rw [if_neg hp, if_neg hp]
      · rw [List.filter_cons_of_neg hpy, List.filter_cons_of_neg hpy, ih hys]

/-- Helper: a stable insertion sort commutes with filtering. -/
theorem sortAux_filter_insertionSort {α : Type} (r : α → α → Prop)
    [DecidableRel r] [IsTotal α r] [IsTrans α r] (p : α → Bool) (l : List α) :
    (l.insertionSort r).filter p = (l.filter p).insertionSort r := by
  induction l with
  | nil => rfl
  | cons x l ih =>
    rw [List.insertionSort,
      sortAux_filter_orderedInsert r p x _ (List.sorted_insertionSort r _), ih,
      List.filter_cons]
    by_cases hp : p x
    · simp [hp, List.insertionSort]
    · simp [hp]

/-- Claim C4 (amended): `getIssues` returns the matching documents newest
first, every returned issue satisfies each truthy filter field, and — as
long as the collection is within the applied limit of 50 documents, so the
`limit` clause truncates nothing — a status-filtered query returns a
sublist of the unfiltered result. -/
theorem getIssues_spec (docs : List IssueDoc) (f : IssueFilters) (s : String) :
    (getIssues docs f).Sorted newerFirst ∧
    (∀ i ∈ getIssues docs f, matchesFilters f i = true) ∧
    (docs.length ≤ 50 →
       (getIssues docs (statusFilter s)).Sublist (getIssues docs noFilters)) := by
  refine ⟨?_, ?_, ?_⟩
  · have hs := List.sorted_insertionSort newerFirst (docs.filter (matchesFilters f))
    exact List.Pairwise.sublist (List.take_sublist _ _) hs
  · intro i hi
    unfold getIssues at hi
    have h1 := List.mem_of_mem_take hi
    rw [List.mem_insertionSort] at h1
    exact List.of_mem_filter h1
  · intro hlen
    unfold getIssues
    have hnof : docs.filter (matchesFilters noFilters) = docs :=
      List.filter_eq_self.mpr (fun a _ => rfl)
    have e1 : itemLimit (statusFilter s) = 50 := rfl
    have e2 : itemLimit noFilters = 50 := rfl
    rw [e1, e2, hnof]
    have h1 : ((docs.filter (matchesFilters (statusFilter s))).insertionSort
        newerFirst).length ≤ 50 := by
      rw [List.length_insertionSort]
      exact le_trans (List.length_filter_le _ _) hlen
    have h2 : (docs.insertionSort newerFirst).length ≤ 50 := by
      rw [List.length_insertionSort]
      exact hlen
    rw [List.take_of_length_le h1, List.take_of_length_le h2,
      ← sortAux_filter_insertionSort newerFirst (matchesFilters (statusFilter s)) docs]
    exact List.filter_sublist _

/-- Claim C4 counterexample: with 51 documents the default `limit(50)`
truncates the unfiltered result, so the status-filtered query returns the
oldest document — the only `Open` one — which the unfiltered result does
not contain: no sublist relationship holds. -/
theorem getIssues_limit_counterexample :
    mkDoc 50 ∈ getIssues exDocs (statusFilter "Open") ∧
    mkDoc 50 ∉ getIssues exDocs noFilters := by
  constructor
  · decide
  · decide

/-- Claim C4 witness: on a two-document collection under the limit, the
status query is a sublist of the unfiltered one. -/
theorem getIssues_spec_witness :
    wDocs.length ≤ 50 ∧
    (getIssues wDocs (statusFilter "Open")).Sublist (getIssues wDocs noFilters) :=
  ⟨by decide, (getIssues_spec wDocs noFilters "Open").2.2 (by decide)⟩

theorem escAux_mem_insertGroup_ne (gs : List ((Int × Int) × List GeoIssue))
    (k k' : Int × Int) (i : GeoIssue) (g' : List GeoIssue) (hne : k' ≠ k) :
    (k', g') ∈ insertGroup gs k i ↔ (k', g') ∈ gs := by
  induction gs with
  | nil =>
    simp [insertGroup, hne]
  | cons e rest ih =>
    obtain ⟨k0, g0⟩ := e
    unfold insertGroup
    by_cases h0 : k0 = k
    · rw [if_pos h0]
      subst h0
      simp only [List.mem_cons]
      constructor
      · rintro (he | hr)
        · exact absurd (congrArg Prod.fst he) (by simpa using hne)
        · exact Or.inr hr
      · rintro (he | hr)
        · exact absurd (congrArg Prod.fst he) (by simpa using hne)
        · exact Or.inr hr
    · rw [if_neg h0]
      simp only [List.mem_cons, ih]

theorem escAux_keys_insertGroup (gs : List ((Int × Int) × List GeoIssue))
    (k : Int × Int) (i : GeoIssue) :
    (insertGroup gs k i).map Prod.fst =
      if k ∈ gs.map Prod.fst then gs.map Prod.fst else gs.map Prod.fst ++ [k] := by
  induction gs with
  | nil => simp [insertGroup]
  | cons e rest ih =>
    obtain ⟨k0, g0⟩ := e
    unfold insertGroup
    by_cases h0 : k0 = k
    · rw [if_pos h0]
      subst h0
      simp
    · rw [if_neg h0]
      simp only [List.map_cons, ih]
      by_cases hk : k ∈ rest.map Prod.fst
      · rw [if_pos hk, if_pos (by simp [hk])]
      · rw [if_neg hk, if_neg (by simp [hk, Ne.symm h0])]
        simp

theorem escAux_mem_insertGroup_self (gs : List ((Int × Int) × List GeoIssue))
    (k : Int × Int) (i : GeoIssue) (g' : List GeoIssue)
    (hnd : (gs.map Prod.fst).Nodup) :
    ((k, g') ∈ insertGroup gs k i ↔
      (∃ g, (k, g) ∈ gs ∧ g' = g ++ [i]) ∨ (k ∉ gs.map Prod.fst ∧ g' = [i])) := by
  induction gs with
  | nil => simp [insertGroup]
  | cons e rest ih =>
    obtain ⟨k0, g0⟩ := e
    have hnd2 : (rest.map Prod.fst).Nodup := (List.nodup_cons.mp hnd).2
    have hk0 : k0 ∉ rest.map Prod.fst := (List.nodup_cons.mp hnd).1
    unfold insertGroup
    by_cases h0 : k0 = k
    · rw [if_pos h0]
      subst h0
      have hrest : ∀ g : List GeoIssue, (k0, g) ∉ rest :=
        fun g hg => hk0 (List.mem_map_of_mem Prod.fst hg)
      constructor
      · intro h
        rcases List.mem_cons.mp h with he | hr
        · injection he with h1 h2
          exact Or.inl ⟨g0, List.mem_cons_self _ _, h2⟩
        · exact absurd hr (hrest g')
      · rintro (⟨g, hg, rfl⟩ | ⟨hk, rfl⟩)
        · rcases List.mem_cons.mp hg with he | hr
          · injection he with h1 h2
            subst h2
            exact List.mem_cons_self _ _
          · exact absurd hr (hrest g)
        · exact absurd (by simp) hk
    · rw [if_neg h0]
      have hne0 : ∀ g : List GeoIssue, (k, g) ≠ (k0, g0) := by
        intro g he
        exact h0 (congrArg Prod.fst he).symm
      constructor
      · intro h
        rcases List.mem_cons.mp h with he | hr
        · exact absurd he (hne0 g')
        · rcases (ih hnd2).mp hr with ⟨g, hg, rfl⟩ | ⟨hk, rfl⟩
          · exact Or.inl ⟨g, List.mem_cons_of_mem _ hg, rfl⟩
          · refine Or.inr ⟨?_, rfl⟩
            simp only [List.map_cons, List.mem_cons]
            rintro (h | h)
            · exact h0 h.symm
            · exact hk h
      · rintro (⟨g, hg, rfl⟩ | ⟨hk, rfl⟩)
        · rcases List.mem_cons.mp hg with he | hr
          · exact absurd he (hne0 g)
          · exact List.mem_cons_of_mem _ ((ih hnd2).mpr (Or.inl ⟨g, hr, rfl⟩))
        · refine List.mem_cons_of_mem _ ((ih hnd2).mpr (Or.inr ⟨?_, rfl⟩))
          intro h
          exact hk (by simp [h])

theorem escAux_bucketIssues_append (issues : List GeoIssue) (i : GeoIssue)
    (k : Int × Int) :
    bucketIssues (issues ++ [i]) k =
      bucketIssues issues k ++ (if bucketOf i = some k then [i] else []) := by
  unfold bucketIssues
  rw [List.filter_append]
  congr 1
  by_cases hb : bucketOf i = some k
  · simp [hb]
  · simp [hb]

theorem escAux_buildGroups_append (issues : List GeoIssue) (i : GeoIssue) :
    buildGroups (issues ++ [i]) =
      (match bucketOf i with
       | none => buildGroups issues
       | some k => insertGroup (buildGroups issues) k i) := by
  unfold buildGroups
  rw [List.foldl_append]
  rfl

theorem escAux_buildGroups_inv (issues : List GeoIssue) :
    ((buildGroups issues).map Prod.fst).Nodup ∧
    (∀ k g, (k, g) ∈ buildGroups issues → g = bucketIssues issues k ∧ g ≠ []) ∧
    (∀ k, bucketIssues issues k ≠ [] → k ∈ (buildGroups issues).map Prod.fst) := by
  induction issues using List.reverseRecOn with
  | nil =>
    refine ⟨by simp [buildGroups], ?_, ?_⟩
    · intro k g hg
      simp [buildGroups] at hg
    · intro k hk
      exact absurd rfl hk
  | append_singleton issues i ih =>
    obtain ⟨ihnd, ihent, ihkey⟩ := ih
    rw [escAux_buildGroups_append]
    cases hb : bucketOf i with
    | none =>
      refine ⟨ihnd, ?_, ?_⟩
      · intro k g hg
        rw [escAux_bucketIssues_append, hb]
        simpa using ihent k g hg
      · intro k hk
        rw [escAux_bucketIssues_append, hb] at hk
        simp only [reduceCtorEq, if_false, List.append_nil] at hk
        exact ihkey k hk
    | some k0 =>
      have hkeys := escAux_keys_insertGroup (buildGroups issues) k0 i
      have hsub : ∀ k : Int × Int, k ∈ (buildGroups issues).map Prod.fst →
          k ∈ (insertGroup (buildGroups issues) k0 i).map Prod.fst := by
        intro k hk
        rw [hkeys]
        by_cases h : k0 ∈ (buildGroups issues).map Prod.fst
        · rw [if_pos h]
          exact hk
        · rw [if_neg h]
          exact List.mem_append_left _ hk
      have hself : k0 ∈ (insertGroup (buildGroups issues) k0 i).map Prod.fst := by
        rw [hkeys]
        by_cases h : k0 ∈ (buildGroups issues).map Prod.fst
        · rw [if_pos h]
          exact h
        · rw [if_neg h]
          exact List.mem_append_right _ (by simp)
      refine ⟨?_, ?_, ?_⟩
      · rw [hkeys]
        by_cases hk : k0 ∈ (buildGroups issues).map Prod.fst
        · rw [if_pos hk]
          exact ihnd
        · rw [if_neg hk]
          simp only [List.nodup_append, List.nodup_cons, List.nodup_nil]
          exact ⟨ihnd, by simp, by simpa [List.disjoint_singleton] using hk⟩
      · intro k g hg
        rw [escAux_bucketIssues_append, hb]
        by_cases hkk : k = k0
        · subst hkk
          rw [if_pos rfl]
          rcases (escAux_mem_insertGroup_self (buildGroups issues) k i g ihnd).mp hg with
            ⟨g0, hg0, rfl⟩ | ⟨hk, rfl⟩
          · have h2 := ihent k g0 hg0
            refine ⟨by rw [h2.1], by simp⟩
          · have hempty : bucketIssues issues k = [] := by
              by_contra hne
              exact hk (ihkey k hne)
            refine ⟨by rw [hempty]; simp, by simp⟩
        · have hcond : ¬ (some k0 = some k) := fun h => hkk (Option.some.inj h).symm
          rw [if_neg hcond, List.append_nil]
          exact ihent k g ((escAux_mem_insertGroup_ne (buildGroups issues) k0 k i g hkk).mp hg)
      · intro k hk
        by_cases hkk : k = k0
        · subst hkk
          exact hself
        · have hcond : ¬ (some k0 = some k) := fun h => hkk (Option.some.inj h).symm
          rw [escAux_bucketIssues_append, hb, if_neg hcond, List.append_nil] at hk
          exact hsub k (ihkey k hk)

theorem escAux_foldl_push (now : Int) (gs : List ((Int × Int) × List GeoIssue)) :
    ∀ acc : List Escalation,
      gs.foldl (fun esc kg => esc ++ (escalationOfGroup now kg.2).toList) acc =
        acc ++ gs.filterMap (fun kg => escalationOfGroup now kg.2) := by
  induction gs with
  | nil =>
    intro acc
    simp
  | cons kg gs ih =>
    intro acc
    rw [List.foldl_cons, ih, List.filterMap_cons]
    cases h : escalationOfGroup now kg.2 with
    | none => simp [h]
    | some e => simp [h]

theorem escAux_checkEscalated_eq (now : Int) (issues : List GeoIssue) :
    checkEscalatedIssues now issues =
      (buildGroups issues).filterMap (fun kg => escalationOfGroup now kg.2) := by
  unfold checkEscalatedIssues
  rw [escAux_foldl_push]
  rfl

theorem escAux_escalationOfGroup_eq_some (now : Int) (g : List GeoIssue)
    (e : Escalation) :
    escalationOfGroup now g = some e ↔
      (5 ≤ g.length ∧ 3 ≤ (g.filter (recentWithin now)).length ∧
        e = { location := headLocation g, issues := g.filter (recentWithin now),
              count := (g.filter (recentWithin now)).length }) := by
  unfold escalationOfGroup
  by_cases h5 : 5 ≤ g.length
  · rw [if_pos h5]
    by_cases h3 : 3 ≤ (g.filter (recentWithin now)).length
    · rw [if_pos h3]
      simp only [Option.some.injEq]
      constructor
      · intro h
        exact ⟨h5, h3, h.symm⟩
      · intro h
        exact h.2.2.symm
    · rw [if_neg h3]
      simp [h3]
  · rw [if_neg h5]
    simp [h5]

theorem escAux_mem_recent_bucket (now : Int) (issues : List GeoIssue)
    (k : Int × Int) (j : GeoIssue)
    (hj : j ∈ (bucketIssues issues k).filter (recentWithin now)) :
    bucketOf j = some k := by
  have h1 := List.mem_of_mem_filter hj
  unfold bucketIssues at h1
  have h2 := List.of_mem_filter h1
  simpa using h2

/-- Claim C1 (amended): `checkEscalatedIssues` raises an escalation entry
for a rounded-coordinate bucket (key `round(lat*1000), round(lng*1000)`;
issues whose `location.lat`/`location.lng` is missing — or equal to `0`,
a falsy number — are ignored) iff the bucket holds at least 5 issues of
which at least 3 have timestamps within the preceding 24 hours; each entry
records the bucket's recent issues and their count. -/
theorem checkEscalatedIssues_spec (now : Int) (issues : List GeoIssue) :
    (∀ k : Int × Int,
       (escalationFor now issues k ∈ checkEscalatedIssues now issues ↔
         escalatedCond now issues k)) ∧
    (∀ e ∈ checkEscalatedIssues now issues,
       ∃ k, e = escalationFor now issues k ∧ escalatedCond now issues k) := by
  obtain ⟨hnd, hent, hkey⟩ := escAux_buildGroups_inv issues
  have hmem : ∀ e : Escalation, e ∈ checkEscalatedIssues now issues ↔
      ∃ kg ∈ buildGroups issues, escalationOfGroup now kg.2 = some e := by
    intro e
    rw [escAux_checkEscalated_eq]
    exact List.mem_filterMap.trans (by
      constructor
      · rintro ⟨kg, hkg, h⟩
        exact ⟨kg, hkg, h⟩
      · rintro ⟨kg, hkg, h⟩
        exact ⟨kg, hkg, h⟩)
  have hback : ∀ k : Int × Int, escalatedCond now issues k →
      escalationFor now issues k ∈ checkEscalatedIssues now issues := by
    intro k hc
    obtain ⟨h5, h3⟩ := hc
    have hne : bucketIssues issues k ≠ [] := by
      intro h
      rw [h] at h5
      simp at h5
    have hkmem := hkey k hne
    obtain ⟨kg, hkg, hfst⟩ := List.mem_map.mp hkmem
    obtain ⟨g, rfl⟩ : ∃ g, kg = (k, g) := by
      obtain ⟨k1, g⟩ := kg
      exact ⟨g, by rw [← hfst]⟩
    have hg := (hent k g hkg).1
    rw [hmem]
    refine ⟨(k, g), hkg, ?_⟩
    rw [escAux_escalationOfGroup_eq_some]
    refine ⟨by rw [hg]; exact h5, by rw [hg]; exact h3, ?_⟩
    unfold escalationFor
    rw [hg]
  have hfwd : ∀ e ∈ checkEscalatedIssues now issues,
      ∃ k, e = escalationFor now issues k ∧ escalatedCond now issues k := by
    intro e he
    obtain ⟨kg, hkg, hsome⟩ := (hmem e).mp he
    obtain ⟨k1, g⟩ := kg
    have hg := (hent k1 g hkg).1
    rw [escAux_escalationOfGroup_eq_some] at hsome
    obtain ⟨h5, h3, rfl⟩ := hsome
    refine ⟨k1, ?_, ?_⟩
    · unfold escalationFor
      rw [hg]
    · exact ⟨by rw [← hg]; exact h5, by rw [← hg]; exact h3⟩
  refine ⟨fun k => ⟨?_, hback k⟩, hfwd⟩
  intro he
  obtain ⟨k1, hk1, hc1⟩ := hfwd _ he
  -- the recorded recent issues determine the bucket, so k = k1
  have hiss : (bucketIssues issues k).filter (recentWithin now) =
      (bucketIssues issues k1).filter (recentWithin now) := by
    have := congrArg Escalation.issues hk1
    simpa [escalationFor] using this
  obtain ⟨h5, h3⟩ := hc1
  have hne : (bucketIssues issues k1).filter (recentWithin now) ≠ [] := by
    intro h
    rw [h] at h3
    simp at h3
  obtain ⟨j, hj⟩ := List.exists_mem_of_ne_nil _ hne
  have hjk1 : bucketOf j = some k1 := escAux_mem_recent_bucket now issues k1 j hj
  have hjk : bucketOf j = some k := by
    apply escAux_mem_recent_bucket now issues k j
    rw [hiss]
    exact hj
  have hkk1 : k = k1 := by
    have := hjk ▸ hjk1
    exact Option.some.inj this
  subst hkk1
  exact ⟨h5, h3⟩

/-- Claim C1 counterexample: five fresh issues at latitude 0, longitude 1
form a bucket satisfying the claim's conditions under the claim's own
ignore rule (only missing fields are skipped), yet `checkEscalatedIssues`
raises nothing, because the JavaScript guard `!issue.location?.lat` also
skips issues whose latitude is the falsy number 0. -/
theorem checkEscalatedIssues_zero_lat_counterexample :
    checkEscalatedIssues 0 zeroLatIssues = [] ∧
    5 ≤ (bucketIssuesClaim zeroLatIssues (0, 1000)).length ∧
    3 ≤ ((bucketIssuesClaim zeroLatIssues (0, 1000)).filter (recentWithin 0)).length := by
  have hb : bucketOfClaim
      { location := some { lat := some 0, lng := some 1 }, timestamp := 0 } =
      some (0, 1000) := by
    unfold bucketOfClaim
    norm_num
  have hfilter : bucketIssuesClaim zeroLatIssues (0, 1000) = zeroLatIssues := by
    unfold bucketIssuesClaim
    rw [List.filter_eq_self]
    intro a ha
    have hae : a =
        { location := some { lat := some 0, lng := some 1 }, timestamp := 0 } := by
      simpa [zeroLatIssues] using ha
    subst hae
    simp [hb]
  have hrec : zeroLatIssues.filter (recentWithin 0) = zeroLatIssues := by
    rw [List.filter_eq_self]
    intro a ha
    have hae : a =
        { location := some { lat := some 0, lng := some 1 }, timestamp := 0 } := by
      simpa [zeroLatIssues] using ha
    subst hae
    decide
  refine ⟨by decide, ?_, ?_⟩
  · rw [hfilter]
    simp [zeroLatIssues]
  · rw [hfilter, hrec]
    simp [zeroLatIssues]

/-- Claim C1 witness: the qualifying bucket of five fresh issues at
latitude 1, longitude 1 is flagged. -/
theorem checkEscalatedIssues_spec_witness :
    escalationFor 0 escWitnessIssues (1000, 1000) ∈
      checkEscalatedIssues 0 escWitnessIssues := by
  apply ((checkEscalatedIssues_spec 0 escWitnessIssues).1 (1000, 1000)).mpr
  have hb : bucketOf
      { location := some { lat := some 1, lng := some 1 }, timestamp := 0 } =
      some (1000, 1000) := by
    unfold bucketOf
    simp
  have hfilter : bucketIssues escWitnessIssues (1000, 1000) = escWitnessIssues := by
    unfold bucketIssues
    rw [List.filter_eq_self]
    intro a ha
    have hae : a =
        { location := some { lat := some 1, lng := some 1 }, timestamp := 0 } := by
      simpa [escWitnessIssues] using ha
    subst hae
    simp [hb]
  have hrec : escWitnessIssues.filter (recentWithin 0) = escWitnessIssues := by
    rw [List.filter_eq_self]
    intro a ha
    have hae : a =
        { location := some { lat := some 1, lng := some 1 }, timestamp := 0 } := by
      simpa [escWitnessIssues] using ha
    subst hae
    decide
  constructor
  · rw [hfilter]
    simp [escWitnessIssues]
  · rw [hfilter, hrec]
    simp [escWitnessIssues]

end CitySense
